import Mathlib

/-!
Verification of the CalmDrafts draft-cleanup core.

This file is a shallow embedding of the policy logic of the CalmDrafts
repository (Go): the emptiness classifier over a Gmail message-part tree
(`internal/gmail/client.go`), the draft construction performed by
`ListDrafts`, the configuration loader (`internal/config/config.go`), the
notification message construction (`internal/notifier/notifier.go`), and
the per-cycle orchestration `checkAndCleanDrafts`
(`cmd/calmdrafts/main.go`).  External effects (the Gmail transport, the
desktop notification sink, the filesystem) are modelled as explicit
inputs: fetch results arrive as `Except` values, per-draft delete results
and notification-send results as boolean oracles, and the configuration
file as a decoded value.  Go `time.Time` values are points on an absolute
integer timeline in nanoseconds where the zero `Time` is `0`;
`time.Duration` is an integer nanosecond count; `t.Before(u)` is `t < u`
and `t.Add(d)` is `t + d`.
-/

namespace Calmdrafts

/-- Nanoseconds per second, for Go duration arithmetic. -/
def nsPerSecond : Int := 1000000000

/-- The Unix epoch on the absolute timeline whose origin is Go's zero
`time.Time` (Jan 1, year 1): 62135596800 seconds later. -/
def unixEpochNs : Int := 62135596800 * nsPerSecond

/-- Model of Go `time.Unix(sec, 0)` on the absolute timeline. -/
def goTimeUnix (sec : Int) : Int := unixEpochNs + sec * nsPerSecond

/-- Model of `gmail.MessagePartBody`: only the `Size` field (an `int64`)
is inspected by this core. -/
structure MessagePartBody where
  Size : Int

/-- Model of `gmail.MessagePart`: an optional body (a nil pointer in Go
becomes `none`) and a list of nested sub-parts. -/
inductive MessagePart where
  | mk (Body : Option MessagePartBody) (Parts : List MessagePart)

/-- Projection for the `Body` field of a `MessagePart`. -/
def MessagePart.Body : MessagePart → Option MessagePartBody
  | .mk b _ => b

/-- Projection for the `Parts` field of a `MessagePart`. -/
def MessagePart.Parts : MessagePart → List MessagePart
  | .mk _ ps => ps

/-- Model of the condition `payload.Body != nil && payload.Body.Size > 0`
from `isEmpty` in `internal/gmail/client.go`. -/
def bodyHasData : Option MessagePartBody → Bool
  | some b => decide (b.Size > 0)
  | none => false

/-- The recursive core of `isEmpty` from `internal/gmail/client.go`,
applied to a non-nil part: if the body has data the part is not empty;
otherwise the part is empty iff every nested sub-part is empty. -/
def partIsEmpty : MessagePart → Bool
  | .mk body parts =>
    if bodyHasData body then false
    else parts.attach.all fun q => partIsEmpty q.1
termination_by p => sizeOf p
decreasing_by
  simp only [MessagePart.mk.sizeOf_spec]
  have := List.sizeOf_lt_of_mem q.2
  omega

/-- `isEmpty` from `internal/gmail/client.go`: a nil payload is empty;
otherwise defer to the recursive check. -/
def isEmpty : Option MessagePart → Bool
  | none => true
  | some p => partIsEmpty p

/-- The draft-level emptiness assignment from line 164 of
`internal/gmail/client.go`:
`d.IsEmpty = d.Subject == "" && d.To == "" && isEmpty(payload)`. -/
def draftIsEmptyOf (Subject To : String) (payload : Option MessagePart) : Bool :=
  (Subject == "") && (To == "") && isEmpty payload

/-- `InTree q p` holds when `q` is the root `p` itself or a sub-part of
`p` nested at any depth. -/
inductive InTree : MessagePart → MessagePart → Prop
  | refl (p : MessagePart) : InTree p p
  | step {p q r : MessagePart} : q ∈ p.Parts → InTree r q → InTree r p

/-- A part has a body with declared size greater than zero. -/
def hasPositiveBody (p : MessagePart) : Prop :=
  ∃ b, p.Body = some b ∧ 0 < b.Size

/-- The `Draft` record built by `ListDrafts` in `internal/gmail/client.go`.
`InternalDate` is a point on the absolute nanosecond timeline; Go's zero
`time.Time` is `0`. -/
structure Draft where
  ID : String
  MessageID : String
  Subject : String
  To : String
  InternalDate : Int
  IsEmpty : Bool

/-- The fields of the remote message record that `ListDrafts` reads from a
successful `Drafts.Get` call: the message id, the raw `InternalDate`
(an `int64` in milliseconds since the Unix epoch, `0` when absent), the
header list, and the payload tree. -/
structure MessageDetail where
  MessageID : String
  InternalDate : Int
  Headers : List (String × String)
  Payload : Option MessagePart

/-- The header-scanning loop of `ListDrafts`: starting from the empty
string, each header whose name matches overwrites the accumulated value,
so the last matching header wins — exactly the Go `for`/`switch` loop. -/
def extractHeader (name : String) (headers : List (String × String)) : String :=
  headers.foldl (fun acc h => if h.1 = name then h.2 else acc) ""

/-- Construction of one `Draft` from a fetched detail record, lines
143–164 of `internal/gmail/client.go`: the internal date is converted
with `time.Unix(ms/1000, 0)` only when the raw value is positive
(otherwise the zero time remains), subject and recipient come from the
header scan, and `IsEmpty` is the line-164 conjunction. -/
def buildDraft (id : String) (det : MessageDetail) : Draft :=
  let internalDate : Int :=
    if det.InternalDate > 0 then goTimeUnix (det.InternalDate / 1000) else 0
  let subject := extractHeader "Subject" det.Headers
  let recipient := extractHeader "To" det.Headers
  { ID := id
    MessageID := det.MessageID
    Subject := subject
    To := recipient
    InternalDate := internalDate
    IsEmpty := draftIsEmptyOf subject recipient det.Payload }

/-- The per-draft body of the `Pages` callback in `ListDrafts`: a failed
`Drafts.Get` (modelled as `none`) is logged and skipped with `continue`;
a successful one appends the built `Draft`. -/
def collectDrafts : List (String × Option MessageDetail) → List Draft
  | [] => []
  | (_, none) :: rest => collectDrafts rest
  | (id, some det) :: rest => buildDraft id det :: collectDrafts rest

/-- `ListDrafts` from `internal/gmail/client.go`, with the remote
responses supplied as input: a transport failure of the paged listing
call is wrapped and returned as an error; otherwise the drafts collected
page by page are returned, each failed per-draft `Get` silently omitted. -/
def ListDrafts (resp : Except String (List (String × Option MessageDetail))) :
    Except String (List Draft) :=
  match resp with
  | .error e => .error ("unable to retrieve drafts: " ++ e)
  | .ok items => .ok (collectDrafts items)

/-- `Config` from `internal/config/config.go`; the two durations are
`time.Duration` values, i.e. `int64` nanosecond counts. -/
structure Config where
  CheckInterval : Int
  CleanupAge : Int
  CredentialsPath : String
  TokenPath : String

/-- `DefaultConfig` from `internal/config/config.go`: one hour and seven
days, in nanoseconds. -/
def DefaultConfig : Config :=
  { CheckInterval := 3600 * nsPerSecond
    CleanupAge := 7 * 24 * 3600 * nsPerSecond
    CredentialsPath := "credentials.json"
    TokenPath := "token.json" }

/-- The possible outcomes of opening and decoding the configuration file,
supplied as input to `LoadConfig`. -/
inductive ConfigFile where
  | missing
  | openFailure (e : String)
  | parsed (decoded : Option Config)

/-- `LoadConfig` from `internal/config/config.go`: a missing file yields
the defaults, any other open failure is returned as an error, a decode
failure is an error, and a decoded config is returned exactly as decoded
— no field of it is inspected or validated. -/
def LoadConfig : ConfigFile → Except String Config
  | .missing => .ok DefaultConfig
  | .openFailure e => .error e
  | .parsed none => .error "decode error"
  | .parsed (some c) => .ok c

/-- The line-112 deletion condition of `checkAndCleanDrafts` in
`cmd/calmdrafts/main.go`, against a precomputed cutoff time:
`draft.IsEmpty && draft.InternalDate.Before(cutoffTime)`. -/
def eligibleAtCutoff (d : Draft) (cutoff : Int) : Bool :=
  d.IsEmpty && decide (d.InternalDate < cutoff)

/-- Deletion eligibility at a given current time and configured cleanup
age: the cutoff is `time.Now().Add(-cfg.CleanupAge)` (line 109). -/
def retentionEligible (d : Draft) (now cleanupAge : Int) : Bool :=
  eligibleAtCutoff d (now - cleanupAge)

/-- Notifications issued through the notifier during one cycle. -/
inductive Notification where
  | summary (total emptyCount : Nat)
  | cleanup (deletedCount : Nat)
  | errorNote (e : String)
deriving DecidableEq

/-- The deletion loop of `checkAndCleanDrafts` (lines 111–122): for each
draft meeting the eligibility condition a delete request is issued; a
failed delete (oracle `deleteOk` false) is logged and skipped with
`continue`, a successful one increments `deletedCount`.  Returns the
issued requests in order, the count of successful deletions, and the
error log lines. -/
def deleteLoop (cutoff : Int) (deleteOk : String → Bool) :
    List Draft → List String × Nat × List String
  | [] => ([], 0, [])
  | d :: rest =>
    let acc := deleteLoop cutoff deleteOk rest
    if eligibleAtCutoff d cutoff then
      if deleteOk d.ID then (d.ID :: acc.1, acc.2.1 + 1, acc.2.2)
      else (d.ID :: acc.1, acc.2.1, ("Error deleting draft " ++ d.ID) :: acc.2.2)
    else acc

/-- The observable outcome of one `checkAndCleanDrafts` cycle. -/
structure CycleResult where
  retError : Option String
  notifications : List Notification
  deleteRequests : List String
  deletedCount : Nat
  logs : List String

/-- `checkAndCleanDrafts` from `cmd/calmdrafts/main.go`, with the fetch
result, the current time, the configured cleanup age, and the two
collaborator oracles as inputs.  On a fetch error the error notification
is sent and the wrapped error is returned; otherwise the summary
notification is attempted (a failure only logged), the deletion loop
runs, and a cleanup notification is attempted only when `deletedCount`
is positive (its failure also only logged); the cycle then returns nil. -/
def checkAndCleanDrafts (fetch : Except String (List Draft))
    (now cleanupAge : Int) (notifyOk : Notification → Bool)
    (deleteOk : String → Bool) : CycleResult :=
  match fetch with
  | .error e =>
    { retError := some ("error listing drafts: " ++ e)
      notifications := [.errorNote e]
      deleteRequests := []
      deletedCount := 0
      logs := [] }
  | .ok drafts =>
    let emptyCount := (drafts.filter (·.IsEmpty)).length
    let summary := Notification.summary drafts.length emptyCount
    let summaryLogs : List String :=
      if notifyOk summary then [] else ["Error sending notification"]
    let cutoffTime := now - cleanupAge
    let loop := deleteLoop cutoffTime deleteOk drafts
    let deletedCount := loop.2.1
    let cleanupNotes : List Notification :=
      if deletedCount > 0 then [.cleanup deletedCount] else []
    let cleanupLogs : List String :=
      if deletedCount > 0 && !notifyOk (.cleanup deletedCount) then
        ["Error sending cleanup notification"]
      else []
    { retError := none
      notifications := [summary] ++ cleanupNotes
      deleteRequests := loop.1
      deletedCount := deletedCount
      logs := summaryLogs ++ loop.2.2 ++ cleanupLogs }

/-- The message built by `NotifyDraftsWithDetails` in
`internal/notifier/notifier.go`: the base count message, with the
`" (N empty)"` suffix appended only when `emptyCount > 0`. -/
def notifyDraftsWithDetailsMessage (count emptyCount : Int) : String :=
  let message := "You have " ++ toString count ++ " draft(s) in your Gmail"
  if emptyCount > 0 then message ++ (" (" ++ toString emptyCount ++ " empty)")
  else message

/-- `NotifyCleanup` in `internal/notifier/notifier.go`: when
`deletedCount == 0` it returns nil without notifying (`none` here);
otherwise it sends the cleanup message. -/
def notifyCleanupMessage (deletedCount : Int) : Option String :=
  if deletedCount = 0 then none
  else some ("Deleted " ++ toString deletedCount ++ " old empty draft(s)")

/-- Sample draft used in concrete instantiations: empty, created at
time 80 on the absolute timeline. -/
def sampleOldEmptyDraft : Draft :=
  { ID := "old1", MessageID := "m1", Subject := "", To := "",
    InternalDate := 80, IsEmpty := true }

/-- Sample draft used in concrete instantiations: empty, created at
time 1000 on the absolute timeline. -/
def sampleFreshEmptyDraft : Draft :=
  { ID := "fresh1", MessageID := "m2", Subject := "", To := "",
    InternalDate := 1000, IsEmpty := true }

/-- A decoded configuration carrying negative durations (minus one hour
for both fields). -/
def sampleNegConfig : Config :=
  { CheckInterval := -3600 * nsPerSecond, CleanupAge := -3600 * nsPerSecond,
    CredentialsPath := "credentials.json", TokenPath := "token.json" }

/-- A fetched message detail with no remote-supplied internal date, no
headers and a nil payload. -/
def sampleDetailNoDate : MessageDetail :=
  { MessageID := "m1", InternalDate := 0, Headers := [], Payload := none }

/-- Structural induction for the nested inductive `MessagePart`. -/
theorem MessagePart.inductionOn {motive : MessagePart → Prop} (p : MessagePart)
    (h : ∀ body parts, (∀ q ∈ parts, motive q) → motive (.mk body parts)) :
    motive p :=
  match p with
  | .mk body parts => h body parts (fun q hq => MessagePart.inductionOn q h)
termination_by sizeOf p
decreasing_by
  simp only [MessagePart.mk.sizeOf_spec]
  have := List.sizeOf_lt_of_mem hq
  omega

theorem partIsEmpty_mk (body : Option MessagePartBody) (parts : List MessagePart) :
    partIsEmpty (.mk body parts)
      = if bodyHasData body then false
        else parts.attach.all fun q => partIsEmpty q.1 := by
  rw [partIsEmpty.eq_def]

theorem bodyHasData_eq_false_iff (body : Option MessagePartBody) :
    bodyHasData body = false ↔ ∀ b, body = some b → ¬ 0 < b.Size := by
  cases body with
  | none => simp [bodyHasData]
  | some b => simp [bodyHasData]

/-- Characterization of the recursive emptiness check: a part is empty
iff no part of its tree (itself included) has a body with positive
declared size. -/
theorem partIsEmpty_eq_true_iff (p : MessagePart) :
    partIsEmpty p = true ↔ ∀ q, InTree q p → ¬ hasPositiveBody q := by
  induction p using MessagePart.inductionOn with
  | h body parts ih =>
    rw [partIsEmpty_mk]
    by_cases hb : bodyHasData body = true
    · rw [if_pos hb]
      simp only [Bool.false_eq_true, false_iff]
      intro hall
      apply hall (.mk body parts) (InTree.refl _)
      cases body with
      | none => simp [bodyHasData] at hb
      | some b => exact ⟨b, rfl, by simpa [bodyHasData] using hb⟩
    · rw [if_neg hb]
      simp only [List.all_eq_true, List.mem_attach, true_implies, Subtype.forall]
      constructor
      · intro hall q hq
        cases hq with
        | refl =>
          rintro ⟨b, hbeq, hbs⟩
          apply hb
          have hbody : body = some b := hbeq
          rw [hbody]
          simp [bodyHasData, hbs]
        | step hmem hsub =>
          exact ((ih _ hmem).mp (hall _ hmem)) q hsub
      · intro hall q hq
        exact (ih q hq).mpr (fun r hr => hall r (InTree.step hq hr))

theorem deleteLoop_fst (cutoff : Int) (dk : String → Bool) (ds : List Draft) :
    (deleteLoop cutoff dk ds).1
      = (ds.filter (fun d => eligibleAtCutoff d cutoff)).map (·.ID) := by
  induction ds with
  | nil => rfl
  | cons d rest ih =>
    by_cases he : eligibleAtCutoff d cutoff = true
    · cases hk : dk d.ID <;> simp [deleteLoop, he, hk, ih, List.filter_cons]
    · simp [deleteLoop, he, ih, List.filter_cons]

theorem deleteLoop_deletedCount (cutoff : Int) (dk : String → Bool)
    (ds : List Draft) :
    (deleteLoop cutoff dk ds).2.1
      = ((ds.filter (fun d => eligibleAtCutoff d cutoff)).filter
          (fun d => dk d.ID)).length := by
  induction ds with
  | nil => rfl
  | cons d rest ih =>
    by_cases he : eligibleAtCutoff d cutoff = true
    · cases hk : dk d.ID <;> simp [deleteLoop, he, hk, ih, List.filter_cons]
    · simp [deleteLoop, he, ih, List.filter_cons]

theorem collectDrafts_eq_filterMap (items : List (String × Option MessageDetail)) :
    collectDrafts items = items.filterMap (fun it => it.2.map (buildDraft it.1)) := by
  induction items with
  | nil => rfl
  | cons it rest ih =>
    obtain ⟨id, det?⟩ := it
    cases det? with
    | none => simpa [collectDrafts, List.filterMap_cons] using ih
    | some det => simp [collectDrafts, List.filterMap_cons, ih]

theorem suffix_of_suffix_append {α : Type} {t b : List α} (a : List α)
    (h : t <:+ a ++ b) (hl : t.length ≤ b.length) : t <:+ b := by
  obtain ⟨p, hp⟩ := h
  have hlen : p.length + t.length = a.length + b.length := by
    simpa using congrArg List.length hp
  have ht : t = (a ++ b).drop p.length := by
    rw [← hp, List.drop_left]
  have hsplit : p.length = a.length + (p.length - a.length) := by omega
  rw [ht, hsplit, List.drop_append]
  exact List.drop_suffix _ _

/-- C1: a draft's `IsEmpty` flag is true iff its subject is exactly the
empty string, its recipient is exactly the empty string, and no part of
its content-part tree — the root payload or any nested sub-part at any
depth — has a body with declared size greater than zero.  In particular
a whitespace-only subject or recipient makes the draft non-empty, and a
part whose size is exactly zero contributes no content. -/
theorem isEmpty_flag_iff (Subject To : String) (payload : Option MessagePart) :
    draftIsEmptyOf Subject To payload = true ↔
      Subject = "" ∧ To = "" ∧
        ∀ root, payload = some root → ∀ q, InTree q root → ¬ hasPositiveBody q := by
  cases payload with
  | none => simp [draftIsEmptyOf, isEmpty, Bool.and_eq_true]
  | some p =>
    simp [draftIsEmptyOf, isEmpty, Bool.and_eq_true, partIsEmpty_eq_true_iff,
      and_assoc]

/-- Concrete instance of `isEmpty_flag_iff`: a draft with empty subject
and recipient whose payload is a single zero-size part is classified
empty, and a whitespace-only subject makes a draft non-empty. -/
theorem isEmpty_flag_iff_witness :
    draftIsEmptyOf "" "" (some (MessagePart.mk (some ⟨0⟩) [])) = true ∧
      draftIsEmptyOf " " "" none = false := by
  constructor
  · apply (isEmpty_flag_iff "" "" (some (MessagePart.mk (some ⟨0⟩) []))).mpr
    refine ⟨rfl, rfl, ?_⟩
    intro root hroot q hq
    injection hroot with hr
    subst hr
    cases hq with
    | refl =>
      rintro ⟨b, hb, hbs⟩
      simp only [MessagePart.Body, Option.some.injEq] at hb
      subst hb
      exact absurd hbs (by decide)
    | step hmem _ => simp [MessagePart.Parts] at hmem
  · decide

/-- C2: during a check cycle a delete request is issued for exactly those
fetched drafts whose `IsEmpty` flag is true and whose `createdAt` is
strictly before now minus the configured cleanup age (one request per
such draft, in fetch order), and eligibility entails the `IsEmpty` flag,
so a non-empty draft is never selected for deletion regardless of age. -/
theorem delete_request_iff_eligible (drafts : List Draft) (now cleanupAge : Int)
    (nk : Notification → Bool) (dk : String → Bool) :
    (checkAndCleanDrafts (.ok drafts) now cleanupAge nk dk).deleteRequests
        = (drafts.filter (fun d => retentionEligible d now cleanupAge)).map (·.ID) ∧
      ∀ d : Draft, retentionEligible d now cleanupAge = true → d.IsEmpty = true := by
  constructor
  · simp [checkAndCleanDrafts, deleteLoop_fst, retentionEligible]
  · intro d hd
    simp only [retentionEligible, eligibleAtCutoff, Bool.and_eq_true] at hd
    exact hd.1

/-- Concrete instance of `delete_request_iff_eligible`: one old empty
draft yields exactly its delete request. -/
theorem delete_request_iff_eligible_witness :
    (checkAndCleanDrafts (.ok [sampleOldEmptyDraft]) 100 10
        (fun _ => true) (fun _ => true)).deleteRequests = ["old1"] ∧
      sampleOldEmptyDraft.IsEmpty = true := by
  refine ⟨?_, (delete_request_iff_eligible [sampleOldEmptyDraft] 100 10
      (fun _ => true) (fun _ => true)).2 sampleOldEmptyDraft (by decide)⟩
  rw [(delete_request_iff_eligible [sampleOldEmptyDraft] 100 10
      (fun _ => true) (fun _ => true)).1]
  decide

/-- C3 (counterexample): retention eligibility is NOT monotonically
preserved when the cleanup age increases: the draft created at time 80 is
eligible at age 10 when now is 100, but not at the larger age 50. -/
theorem retention_monotone_in_age_counterexample :
    ¬ ∀ (d : Draft) (now a a' : Int), retentionEligible d now a = true →
        a < a' → retentionEligible d now a' = true := by
  intro h
  exact absurd (h sampleOldEmptyDraft 100 10 50 (by decide) (by decide))
    (by decide)

/-- C3 (amended): retention eligibility is antitone in the configured age
threshold: for every draft with fixed `createdAt` and fixed current time,
if the draft is eligible at cleanup age A then it is eligible at every
cleanup age A' less than or equal to A. -/
theorem retention_antitone_in_age (d : Draft) (now a a' : Int) (h : a' ≤ a)
    (he : retentionEligible d now a = true) :
    retentionEligible d now a' = true := by
  unfold retentionEligible eligibleAtCutoff at he ⊢
  simp only [Bool.and_eq_true, decide_eq_true_eq] at he ⊢
  exact ⟨he.1, by omega⟩

/-- Concrete instance of `retention_antitone_in_age`: eligibility at age
10 transfers down to age 5. -/
theorem retention_antitone_in_age_witness :
    retentionEligible sampleOldEmptyDraft 100 5 = true :=
  retention_antitone_in_age sampleOldEmptyDraft 100 10 5 (by decide) (by decide)

/-- C4 (counterexample): a decoded configuration with negative
`checkInterval` and `cleanupAge` is returned by `LoadConfig` unchanged —
no non-negativity validation is performed anywhere — and the negative
`cleanupAge` flows straight into the retention policy, where it makes a
draft created exactly at the current time eligible for deletion. -/
theorem config_durations_validated_counterexample :
    LoadConfig (.parsed (some sampleNegConfig)) = .ok sampleNegConfig ∧
      sampleNegConfig.CheckInterval < 0 ∧ sampleNegConfig.CleanupAge < 0 ∧
      retentionEligible sampleFreshEmptyDraft 1000 sampleNegConfig.CleanupAge
        = true :=
  ⟨rfl, by decide, by decide, by decide⟩

/-- C4 (amended): the two configured duration values are not validated as
non-negative anywhere in the program: `LoadConfig` returns any decoded
configuration unchanged, negative durations included, and only the
defaults used when the configuration file is missing are positive. -/
theorem loadConfig_returns_decoded_unvalidated :
    (∀ c : Config, LoadConfig (.parsed (some c)) = .ok c) ∧
      LoadConfig .missing = .ok DefaultConfig ∧
      0 < DefaultConfig.CheckInterval ∧ 0 < DefaultConfig.CleanupAge :=
  ⟨fun _ => rfl, rfl, by decide, by decide⟩

/-- C5: a draft whose remote record supplies no positive internal date
keeps the zero `createdAt`, and provided the cutoff (now minus
cleanupAge) is after the zero time, such a draft is eligible for deletion
whenever it is classified empty, regardless of the cleanup age. -/
theorem zero_date_draft_eligible (id : String) (det : MessageDetail)
    (now cleanupAge : Int) (hdate : det.InternalDate ≤ 0)
    (hempty : (buildDraft id det).IsEmpty = true)
    (hcut : 0 < now - cleanupAge) :
    retentionEligible (buildDraft id det) now cleanupAge = true := by
  have hzero : (buildDraft id det).InternalDate = 0 := by
    show (if det.InternalDate > 0 then goTimeUnix (det.InternalDate / 1000)
          else 0) = 0
    rw [if_neg (by omega)]
  unfold retentionEligible eligibleAtCutoff
  rw [hzero, hempty]
  simp only [Bool.true_and, decide_eq_true_eq]
  omega

/-- Concrete instance of `zero_date_draft_eligible`: a dateless empty
draft is eligible at now = 10 with cleanup age 3. -/
theorem zero_date_draft_eligible_witness :
    retentionEligible (buildDraft "d1" sampleDetailNoDate) 10 3 = true :=
  zero_date_draft_eligible "d1" sampleDetailNoDate 10 3 (by decide)
    (by decide) (by decide)

/-- C6: a check cycle returns an error iff the initial listing fetch
fails; on a fetch failure the cycle sends exactly the error notification
(no summary, no cleanup) and issues no delete requests, while on a
successful fetch the cycle returns nil whatever the notification-send
and per-draft deletion outcomes are. -/
theorem cycle_error_iff_fetch_failure :
    (∀ (e : String) (now cleanupAge : Int) (nk : Notification → Bool)
        (dk : String → Bool),
      (checkAndCleanDrafts (.error e) now cleanupAge nk dk).retError
          = some ("error listing drafts: " ++ e) ∧
        (checkAndCleanDrafts (.error e) now cleanupAge nk dk).notifications
          = [.errorNote e] ∧
        (checkAndCleanDrafts (.error e) now cleanupAge nk dk).deleteRequests
          = []) ∧
      ∀ (drafts : List Draft) (now cleanupAge : Int) (nk : Notification → Bool)
          (dk : String → Bool),
        (checkAndCleanDrafts (.ok drafts) now cleanupAge nk dk).retError
          = none :=
  ⟨fun _ _ _ _ _ => ⟨rfl, rfl, rfl⟩, fun _ _ _ _ _ => rfl⟩

/-- C7: deletions are attempted independently: the delete requests issued
do not depend on the per-draft delete outcomes — every eligible draft
receives exactly one request even when other deletions fail (no abort on
first failure, no retry) — and `deletedCount` counts exactly the eligible
drafts whose deletion succeeded. -/
theorem deletions_independent (drafts : List Draft) (now cleanupAge : Int)
    (nk : Notification → Bool) (dk dk' : String → Bool) :
    (checkAndCleanDrafts (.ok drafts) now cleanupAge nk dk).deleteRequests
        = (checkAndCleanDrafts (.ok drafts) now cleanupAge nk dk').deleteRequests ∧
      (checkAndCleanDrafts (.ok drafts) now cleanupAge nk dk).deleteRequests.length
        = (drafts.filter (fun d => retentionEligible d now cleanupAge)).length ∧
      (checkAndCleanDrafts (.ok drafts) now cleanupAge nk dk).deletedCount
        = ((drafts.filter (fun d => retentionEligible d now cleanupAge)).filter
            (fun d => dk d.ID)).length := by
  refine ⟨?_, ?_, ?_⟩ <;>
    simp [checkAndCleanDrafts, deleteLoop_fst, deleteLoop_deletedCount,
      retentionEligible]

/-- C8: a cleanup notification reporting `deletedCount` appears among the
cycle's notifications iff `deletedCount` is positive, and the notifier
itself sends nothing when asked to report zero deletions. -/
theorem cleanup_notification_iff (drafts : List Draft) (now cleanupAge : Int)
    (nk : Notification → Bool) (dk : String → Bool) :
    ((∃ m, Notification.cleanup m
          ∈ (checkAndCleanDrafts (.ok drafts) now cleanupAge nk dk).notifications)
        ↔ 0 < (checkAndCleanDrafts (.ok drafts) now cleanupAge nk dk).deletedCount) ∧
      (0 < (checkAndCleanDrafts (.ok drafts) now cleanupAge nk dk).deletedCount →
        Notification.cleanup
            (checkAndCleanDrafts (.ok drafts) now cleanupAge nk dk).deletedCount
          ∈ (checkAndCleanDrafts (.ok drafts) now cleanupAge nk dk).notifications) ∧
      notifyCleanupMessage 0 = none := by
  refine ⟨?_, ?_, rfl⟩ <;>
    by_cases h : 0 < (deleteLoop (now - cleanupAge) dk drafts).2.1 <;>
      simp [checkAndCleanDrafts, h]

/-- Concrete instance of `cleanup_notification_iff`: deleting the one old
empty draft puts `cleanup 1` among the notifications. -/
theorem cleanup_notification_iff_witness :
    Notification.cleanup 1
      ∈ (checkAndCleanDrafts (.ok [sampleOldEmptyDraft]) 100 10
          (fun _ => true) (fun _ => true)).notifications := by
  have h := (cleanup_notification_iff [sampleOldEmptyDraft] 100 10
      (fun _ => true) (fun _ => true)).2.1
  have hc : (checkAndCleanDrafts (.ok [sampleOldEmptyDraft]) 100 10
      (fun _ => true) (fun _ => true)).deletedCount = 1 := by decide
  rw [hc] at h
  exact h (by decide)

/-- C9: `ListDrafts` silently omits every draft whose per-draft detail
fetch failed while still returning success — the returned listing is the
successful fetches only, and can be a strict subset of the remote drafts
— whereas a failure of the listing call itself is returned as an error. -/
theorem listDrafts_skips_failed_gets :
    (∀ items, ListDrafts (.ok items)
        = .ok (items.filterMap (fun it => it.2.map (buildDraft it.1)))) ∧
      (∀ e, ListDrafts (.error e)
        = .error ("unable to retrieve drafts: " ++ e)) ∧
      ∃ items ds, ListDrafts (.ok items) = .ok ds ∧ ds.length < items.length := by
  refine ⟨?_, fun _ => rfl, ⟨[("a", none)], [], rfl, by decide⟩⟩
  intro items
  simp [ListDrafts, collectDrafts_eq_filterMap]

/-- C10: the summary notification message carries the `" (N empty)"`
suffix exactly when the empty-draft count is positive; when it is not
(the zero-drafts case included) the message is only the total-count
sentence, with no mention of empty drafts. -/
theorem summary_empty_suffix_iff (c e : Int) :
    ((" (" ++ toString e ++ " empty)").data
        <:+ (notifyDraftsWithDetailsMessage c e).data ↔ 0 < e) ∧
      (e ≤ 0 → notifyDraftsWithDetailsMessage c e
        = "You have " ++ toString c ++ " draft(s) in your Gmail") := by
  constructor
  · constructor
    · intro hsuf
      by_contra hne
      have hmsg : notifyDraftsWithDetailsMessage c e
          = "You have " ++ toString c ++ " draft(s) in your Gmail" := by
        unfold notifyDraftsWithDetailsMessage
        rw [if_neg hne]
      rw [hmsg] at hsuf
      have h7 : (" empty)").data <:+ (" (" ++ toString e ++ " empty)").data := by
        simp only [String.data_append]
        exact List.suffix_append _ _
      have h8 := h7.trans hsuf
      rw [String.data_append] at h8
      have h9 := suffix_of_suffix_append _ h8 (by decide)
      exact absurd h9 (by decide)
    · intro he
      have hmsg : notifyDraftsWithDetailsMessage c e
          = ("You have " ++ toString c ++ " draft(s) in your Gmail")
            ++ (" (" ++ toString e ++ " empty)") := by
        unfold notifyDraftsWithDetailsMessage
        rw [if_pos he]
      rw [hmsg, String.data_append]
      exact List.suffix_append _ _
  · intro he
    unfold notifyDraftsWithDetailsMessage
    rw [if_neg (by omega)]

/-- Concrete instance of `summary_empty_suffix_iff`: with 3 drafts of
which 2 are empty the suffix appears; with none empty the message is the
bare count sentence. -/
theorem summary_empty_suffix_iff_witness :
    ((" (" ++ toString (2 : Int) ++ " empty)").data
        <:+ (notifyDraftsWithDetailsMessage 3 2).data) ∧
      notifyDraftsWithDetailsMessage 3 0
        = "You have " ++ toString (3 : Int) ++ " draft(s) in your Gmail" :=
  ⟨(summary_empty_suffix_iff 3 2).1.mpr (by decide),
    (summary_empty_suffix_iff 3 0).2 (by decide)⟩

end Calmdrafts
